import Mathlib

/-!
Verification development for the site-differ repository (a website
diff-checker Lambda).  The Python sources under `src/lambda` are shallowly
embedded below:

* `diff_generator.py`  — `generate_diff_snippet` / `truncate_line`, together
  with the parts of CPython's `difflib` it calls (`SequenceMatcher`,
  `unified_diff` with `n = 0`), modelled over `List Char` lines;
* `dynamodb_state.py`  — items and the partial-update semantics of
  `update_state` (a DynamoDB `SET` expression only touches the named
  attributes; a `ClientError` is re-raised);
* `app.py`             — `should_notify`, `process_url`, `lambda_handler`.

External collaborators are parameters: the fetcher is a function producing a
`FetchOutcome`, HTML normalization (`normalize_html`) and the SHA-256
fingerprint (`compute_hash`) are function parameters of the orchestrator
(no claim depends on their internals), timestamps are an abstract rational
"seconds" value plus its ISO rendering, and `datetime.fromisoformat` is an
abstract partial parse function.
-/

namespace SiteDiffer

set_option maxHeartbeats 1000000
set_option maxRecDepth 100000

/-- The characters on which Python's `str.splitlines` splits. -/
def isLineBreakChar (c : Char) : Bool :=
  c = '\n' || c = '\r' || c = '\x0b' || c = '\x0c' || c = '\x1c' ||
  c = '\x1d' || c = '\x1e' || c = '\x85' || c = '\u2028' || c = '\u2029'

/-- A line is an (unterminated) list of characters. -/
abbrev Line := List Char

/-- Worker for `str.splitlines`: `acc` holds the current line, reversed. -/
def pySplitlinesAux : List Char → List Char → List Line
  | [], acc => if acc.isEmpty then [] else [acc.reverse]
  | '\r' :: '\n' :: cs, acc => acc.reverse :: pySplitlinesAux cs []
  | c :: cs, acc =>
    if isLineBreakChar c then acc.reverse :: pySplitlinesAux cs []
    else pySplitlinesAux cs (c :: acc)

/-- Python `str.splitlines` over character lists. -/
def pySplitlinesCore (cs : List Char) : List Line :=
  pySplitlinesAux cs []

/-- Python `str.splitlines` on strings. -/
def pySplitlines (s : String) : List String :=
  (pySplitlinesCore s.toList).map String.mk

/-- Python `'\n'.join` over character-list lines. -/
def joinNLCore : List Line → List Char
  | [] => []
  | [l] => l
  | l :: ls => l ++ '\n' :: joinNLCore ls

/-- Decimal digit character (only used with arguments below 10). -/
def decDigit (n : Nat) : Char := Char.ofNat (48 + n % 10)

/-- Decimal rendering worker, with fuel bounding the digit count. -/
def natDecimalAux : Nat → Nat → List Char
  | 0, _ => []
  | fuel + 1, n =>
    if n < 10 then [decDigit n]
    else natDecimalAux fuel (n / 10) ++ [decDigit (n % 10)]

/-- Decimal rendering of a natural number, as Python formats an `int`
(`n + 1` units of fuel always suffice since the digit count is at most
`n + 1`). -/
def natDecimal (n : Nat) : List Char := natDecimalAux (n + 1) n

/-! ### `diff_generator.py` -/

/-- Maximum number of changed lines to include in a snippet. -/
def MAX_DIFF_LINES : Nat := 20

/-- Maximum line length before truncation. -/
def MAX_LINE_LENGTH : Nat := 200

/-- `truncate_line`: keep the first 200 characters and add an ellipsis when
the line is longer than `MAX_LINE_LENGTH`. -/
def truncLineCore (l : Line) : Line :=
  if MAX_LINE_LENGTH < l.length then l.take MAX_LINE_LENGTH ++ ("...").toList
  else l

/-- `truncate_line` on strings. -/
def truncate_line (l : String) : String :=
  String.mk (truncLineCore l.toList)

/-- The trailing marker of the empty-old-text branch. -/
def moreLinesMarkerCore (k : Nat) : Line :=
  ("... (").toList ++ natDecimal k ++ (" more lines)").toList

/-- The trailing marker of the diff branch. -/
def moreChangesMarkerCore (k : Nat) : Line :=
  ("... (").toList ++ natDecimal k ++ (" more changes)").toList

/-! ### difflib: `SequenceMatcher(None, a, b)` on lists of lines

`unified_diff` instantiates `SequenceMatcher` with `isjunk = None`, so the
junk set `bjunk` is empty; the `autojunk` heuristic still removes popular
elements from the index `b2j` when `b` has at least 200 elements. -/

/-- The positions of `x` in `b`, in increasing order (the `b2j` entry that
`__chain_b` builds by appending indices as it scans `b`). -/
def b2jIndices (b : List Line) (x : Line) : List Nat :=
  (List.range b.length).filter (fun j => b.getD j [] = x)

/-- The `autojunk` test of `__chain_b`: with `len(b) >= 200`, elements
occurring more than `1% + 1` times are dropped from `b2j`. -/
def isPopular (b : List Line) (x : Line) : Bool :=
  200 ≤ b.length && b.length / 100 + 1 < (b2jIndices b x).length

/-- The `b2j` lookup after junk/popular purging (`isjunk = None`). -/
def b2jLookup (b : List Line) (x : Line) : List Nat :=
  if isPopular b x then [] else b2jIndices b x

/-- Inner loop of `find_longest_match`: walk the (increasing) index list
`js = b2j[a[i]]`, skipping `j < blo` (`continue`) and stopping at the first
`j ≥ bhi` (`break`); `j2len` is the previous row's run-length map and
`acc` the `newj2len` map being built (both default to 0 on absent keys,
matching `dict.get(j-1, 0)`; the Python lookup at key `-1` is the `j = 0`
case and also yields 0). -/
def flmRow (i blo bhi : Nat) (j2len : Nat → Nat) :
    List Nat → (Nat → Nat) → Nat × Nat × Nat → (Nat → Nat) × (Nat × Nat × Nat)
  | [], acc, best => (acc, best)
  | j :: js, acc, best =>
    if j < blo then flmRow i blo bhi j2len js acc best
    else if bhi ≤ j then (acc, best)
    else
      let k := (if j = 0 then 0 else j2len (j - 1)) + 1
      let acc' := fun x => if x = j then k else acc x
      let best' := if best.2.2 < k then (i + 1 - k, j + 1 - k, k) else best
      flmRow i blo bhi j2len js acc' best'

/-- Outer loop of `find_longest_match` over the rows `i ∈ [alo, ahi)`. -/
def flmRows (a b : List Line) (blo bhi : Nat) :
    List Nat → (Nat → Nat) → Nat × Nat × Nat → Nat × Nat × Nat
  | [], _, best => best
  | i :: is', j2len, best =>
    let (j2len', best') :=
      flmRow i blo bhi j2len (b2jLookup b (a.getD i [])) (fun _ => 0) best
    flmRows a b blo bhi is' j2len' best'

/-- The `while besti > alo and bestj > blo and test(b[bestj-1]) and
a[besti-1] == b[bestj-1]` extension loop of `find_longest_match`.  `besti`
drops by one per iteration, so fuel equal to the initial `besti` is always
enough for the loop to run to completion. -/
def extendDown (a b : List Line) (test : Line → Bool) (alo blo : Nat) :
    Nat → Nat × Nat × Nat → Nat × Nat × Nat
  | 0, best => best
  | fuel + 1, (besti, bestj, bestsize) =>
    if alo < besti && blo < bestj && test (b.getD (bestj - 1) []) &&
        decide (a.getD (besti - 1) [] = b.getD (bestj - 1) []) then
      extendDown a b test alo blo fuel (besti - 1, bestj - 1, bestsize + 1)
    else (besti, bestj, bestsize)

/-- The `while besti+bestsize < ahi and bestj+bestsize < bhi and
test(b[bestj+bestsize]) and a[besti+bestsize] == b[bestj+bestsize]`
extension loop; `besti + bestsize` grows by one per iteration, so fuel
`ahi` always suffices. -/
def extendUp (a b : List Line) (test : Line → Bool) (ahi bhi : Nat) :
    Nat → Nat × Nat × Nat → Nat × Nat × Nat
  | 0, best => best
  | fuel + 1, (besti, bestj, bestsize) =>
    if besti + bestsize < ahi && bestj + bestsize < bhi &&
        test (b.getD (bestj + bestsize) []) &&
        decide (a.getD (besti + bestsize) [] = b.getD (bestj + bestsize) []) then
      extendUp a b test ahi bhi fuel (besti, bestj, bestsize + 1)
    else (besti, bestj, bestsize)

/-- `SequenceMatcher.find_longest_match` on `[alo, ahi) × [blo, bhi)`.
With `isjunk = None` the junk set is empty, so the junk test is the
constant `false`: the first pair of extension loops runs with the
"not junk" test (constantly true) and the second pair with the junk test
(constantly false, i.e. they never iterate). -/
def findLongestMatch (a b : List Line) (alo ahi blo bhi : Nat) :
    Nat × Nat × Nat :=
  let best := flmRows a b blo bhi (List.range' alo (ahi - alo)) (fun _ => 0)
    (alo, blo, 0)
  let best := extendDown a b (fun _ => true) alo blo best.1 best
  let best := extendUp a b (fun _ => true) ahi bhi ahi best
  let best := extendDown a b (fun _ => false) alo blo best.1 best
  extendUp a b (fun _ => false) ahi bhi ahi best

/-- Recursive form of `get_matching_blocks`'s queue processing: find the
longest match, then recurse on the region to the lower left and the region
to the upper right.  The Python version uses an explicit stack and sorts
the collected blocks afterwards; since the blocks of the two sub-regions
lie strictly on either side of `(i, j, k)`, the in-order recursion below
produces exactly that sorted list.  One unit of fuel is consumed per
recursion level and the region size shrinks at every level, so fuel
`|a| + |b| + 1` at the top always suffices. -/
def matchingBlocksAux (a b : List Line) :
    Nat → Nat → Nat → Nat → Nat → List (Nat × Nat × Nat)
  | 0, _, _, _, _ => []
  | fuel + 1, alo, ahi, blo, bhi =>
    let m := findLongestMatch a b alo ahi blo bhi
    let i := m.1; let j := m.2.1; let k := m.2.2
    if k = 0 then []
    else
      (if alo < i && blo < j then matchingBlocksAux a b fuel alo i blo j
       else []) ++
      (i, j, k) ::
      (if i + k < ahi && j + k < bhi then
        matchingBlocksAux a b fuel (i + k) ahi (j + k) bhi
       else [])

/-- The adjacent-block collapsing pass of `get_matching_blocks`: the state
`(i1, j1, k1)` is the pending block, extended whenever the next block is
adjacent on both sides, and emitted (when nonempty) otherwise. -/
def collapseBlocks : Nat × Nat × Nat → List (Nat × Nat × Nat) →
    List (Nat × Nat × Nat)
  | (i1, j1, k1), [] => if k1 ≠ 0 then [(i1, j1, k1)] else []
  | (i1, j1, k1), (i2, j2, k2) :: rest =>
    if i1 + k1 = i2 && j1 + k1 = j2 then
      collapseBlocks (i1, j1, k1 + k2) rest
    else
      (if k1 ≠ 0 then [(i1, j1, k1)] else []) ++
      collapseBlocks (i2, j2, k2) rest

/-- `SequenceMatcher.get_matching_blocks`, including the terminal
`(len(a), len(b), 0)` sentinel. -/
def getMatchingBlocks (a b : List Line) : List (Nat × Nat × Nat) :=
  collapseBlocks (0, 0, 0)
    (matchingBlocksAux a b (a.length + b.length + 1) 0 a.length 0 b.length) ++
  [(a.length, b.length, 0)]

/-- Opcode tags of `SequenceMatcher.get_opcodes`. -/
inductive Tag where
  | replace | delete | insert | equal
deriving DecidableEq

/-- One `(tag, i1, i2, j1, j2)` opcode. -/
structure Opcode where
  tag : Tag
  i1 : Nat
  i2 : Nat
  j1 : Nat
  j2 : Nat
deriving DecidableEq

/-- The loop of `get_opcodes` over the matching blocks, carrying the
current positions `i`, `j`. -/
def getOpcodesAux : Nat → Nat → List (Nat × Nat × Nat) → List Opcode
  | _, _, [] => []
  | i, j, (ai, bj, size) :: rest =>
    let pre : List Opcode :=
      if i < ai && j < bj then [⟨.replace, i, ai, j, bj⟩]
      else if i < ai then [⟨.delete, i, ai, j, bj⟩]
      else if j < bj then [⟨.insert, i, ai, j, bj⟩]
      else []
    let eqc : List Opcode :=
      if size ≠ 0 then [⟨.equal, ai, ai + size, bj, bj + size⟩] else []
    pre ++ eqc ++ getOpcodesAux (ai + size) (bj + size) rest

/-- `SequenceMatcher.get_opcodes`. -/
def getOpcodes (a b : List Line) : List Opcode :=
  getOpcodesAux 0 0 (getMatchingBlocks a b)

/-- The head fixup of `get_grouped_opcodes`: a leading `equal` opcode is
shrunk to at most `n` trailing lines of context. -/
def fixupHead (n : Nat) : List Opcode → List Opcode
  | [] => []
  | c :: rest =>
    if c.tag = .equal then
      { c with i1 := max c.i1 (c.i2 - n), j1 := max c.j1 (c.j2 - n) } :: rest
    else c :: rest

/-- The tail fixup of `get_grouped_opcodes`: a trailing `equal` opcode is
shrunk to at most `n` leading lines of context. -/
def fixupLast (n : Nat) (codes : List Opcode) : List Opcode :=
  match codes.getLast? with
  | none => []
  | some c =>
    if c.tag = .equal then
      codes.dropLast ++
        [{ c with i2 := min c.i2 (c.i1 + n), j2 := min c.j2 (c.j1 + n) }]
    else codes

/-- The grouping loop of `get_grouped_opcodes`: an `equal` opcode wider
than `2n` ends the current group (keeping `n` lines of leading context)
and opens the next one (keeping `n` lines of trailing context).  Returns
the yielded groups together with the group still being built. -/
def groupLoop (n : Nat) : List Opcode → List Opcode →
    List (List Opcode) × List Opcode
  | [], group => ([], group)
  | c :: cs, group =>
    if c.tag = .equal && 2 * n < c.i2 - c.i1 then
      let done := group ++
        [{ c with i2 := min c.i2 (c.i1 + n), j2 := min c.j2 (c.j1 + n) }]
      let rest := groupLoop n cs
        [{ c with i1 := max c.i1 (c.i2 - n), j1 := max c.j1 (c.j2 - n) }]
      (done :: rest.1, rest.2)
    else groupLoop n cs (group ++ [c])

/-- `SequenceMatcher.get_grouped_opcodes`, including the final
"yield the last group unless it is a single `equal` opcode" step and the
fabricated `("equal", 0, 1, 0, 1)` opcode for empty inputs. -/
def getGroupedOpcodes (codes0 : List Opcode) (n : Nat) :
    List (List Opcode) :=
  let codes := if codes0.isEmpty then [⟨.equal, 0, 1, 0, 1⟩] else codes0
  let r := groupLoop n (fixupLast n (fixupHead n codes)) []
  r.1 ++
    (if ¬ r.2.isEmpty &&
        ¬ (r.2.length = 1 && (r.2.headD ⟨.equal, 0, 0, 0, 0⟩).tag = .equal)
      then [r.2] else [])

/-! ### difflib: `unified_diff(a, b, lineterm='', n=0)` -/

/-- Python's slice `xs[i:j]`. -/
def listSlice (xs : List Line) (i j : Nat) : List Line :=
  (xs.drop i).take (j - i)

/-- `difflib._format_range_unified`. -/
def formatRangeUnified (start stop : Nat) : List Char :=
  let beginning := start + 1
  let len := stop - start
  if len = 1 then natDecimal beginning
  else
    natDecimal (if len = 0 then beginning - 1 else beginning) ++
      (",").toList ++ natDecimal len

/-- The `@@ -… +… @@` line of one group (`lineterm` is the empty string in
`generate_diff_snippet`'s call). -/
def groupHeader (g : List Opcode) : Line :=
  match g.head?, g.getLast? with
  | some first, some last =>
    ("@@ -").toList ++ formatRangeUnified first.i1 last.i2 ++
      (" +").toList ++ formatRangeUnified first.j1 last.j2 ++ (" @@").toList
  | _, _ => ("@@").toList

/-- The content lines emitted for one group: context lines prefixed with a
space, removals with `-`, additions with `+` (a `replace` opcode emits its
removals before its additions). -/
def opcodeLines (a b : List Line) (g : List Opcode) : List Line :=
  (g.map (fun c =>
    match c.tag with
    | .equal => (listSlice a c.i1 c.i2).map (fun l => ' ' :: l)
    | .replace => (listSlice a c.i1 c.i2).map (fun l => '-' :: l) ++
        (listSlice b c.j1 c.j2).map (fun l => '+' :: l)
    | .delete => (listSlice a c.i1 c.i2).map (fun l => '-' :: l)
    | .insert => (listSlice b c.j1 c.j2).map (fun l => '+' :: l))).flatten

/-- `difflib.unified_diff(a, b, lineterm='', n=n)` as a list of lines:
the `--- ` / `+++ ` file headers are emitted once, before the first group
(with empty file names and dates). -/
def unifiedDiffCore (a b : List Line) (n : Nat) : List Line :=
  match getGroupedOpcodes (getOpcodes a b) n with
  | [] => []
  | groups =>
    ("--- ").toList :: ("+++ ").toList ::
      (groups.map (fun g => groupHeader g :: opcodeLines a b g)).flatten

/-! ### `generate_diff_snippet` -/

/-- The header filter of `generate_diff_snippet`: drop every line starting
with `---`, `+++` or `@@`. -/
def isHeaderLine (l : Line) : Bool :=
  ("---").toList.isPrefixOf l || ("+++").toList.isPrefixOf l ||
    ("@@").toList.isPrefixOf l

/-- Empty-old-text branch: the first `MAX_DIFF_LINES` lines of the new
text, each truncated and then prefixed with `"+ "`. -/
def newUrlLinesCore (newText : List Char) : List Line :=
  ((pySplitlinesCore newText).take MAX_DIFF_LINES).map
    (fun l => '+' :: ' ' :: truncLineCore l)

/-- Empty-old-text branch of `generate_diff_snippet`: join the prefixed
lines and append the `... (k more lines)` marker to the joined string when
the new text has more than `MAX_DIFF_LINES` lines. -/
def newUrlSnippetCore (newText : List Char) : List Char :=
  let base := joinNLCore (newUrlLinesCore newText)
  if MAX_DIFF_LINES < (pySplitlinesCore newText).length then
    base ++ '\n' ::
      moreLinesMarkerCore ((pySplitlinesCore newText).length - MAX_DIFF_LINES)
  else base

/-- The zero-context unified diff of the two texts with header lines
filtered out (`filtered_lines` in the source). -/
def diffFilteredCore (oldText newText : List Char) : List Line :=
  (unifiedDiffCore (pySplitlinesCore oldText) (pySplitlinesCore newText)
      0).filter (fun l => ¬ isHeaderLine l)

/-- Diff branch of `generate_diff_snippet`: cap the filtered lines at
`MAX_DIFF_LINES` (appending the `... (k more changes)` marker when over
the cap) and truncate every resulting line. -/
def diffSnippetLinesCore (oldText newText : List Char) : List Line :=
  let filtered := diffFilteredCore oldText newText
  let snippetLines :=
    if MAX_DIFF_LINES < filtered.length then
      filtered.take MAX_DIFF_LINES ++
        [moreChangesMarkerCore (filtered.length - MAX_DIFF_LINES)]
    else filtered
  snippetLines.map truncLineCore

/-- `generate_diff_snippet` over character lists (`if not old_text` is the
empty-string test). -/
def generateDiffSnippetCore (oldText newText : List Char) : List Char :=
  if oldText.isEmpty then newUrlSnippetCore newText
  else joinNLCore (diffSnippetLinesCore oldText newText)

/-- `generate_diff_snippet` on strings. -/
def generate_diff_snippet (oldText newText : String) : String :=
  String.mk (generateDiffSnippetCore oldText.toList newText.toList)

/-! ### `dynamodb_state.py`

A stored item is a dictionary of optional attributes.  `update_state`
builds a DynamoDB `SET k = :k, ...` expression naming exactly the keys of
its `updates` dict, so attributes it does not name keep their stored
value; on a `ClientError` it logs and re-raises.  The same record type
serves as the `updates` dict, a `none` field meaning "not named in the
update". -/

/-- A DynamoDB item for one URL (also used as a partial update). -/
structure Item where
  last_hash : Option String := none
  normalized_text : Option String := none
  etag : Option String := none
  last_modified : Option String := none
  last_checked_at : Option String := none
  last_changed_at : Option String := none
  last_notified_at : Option String := none
  error_count : Option Nat := none
  last_error : Option String := none
deriving DecidableEq

/-- Field-wise merge: the update's value when named, else the stored one. -/
def updField {α : Type} (u p : Option α) : Option α :=
  match u with
  | some v => some v
  | none => p

/-- The effect of the `SET` expression on the stored item (a missing item
behaves as the empty item: DynamoDB creates it with the named attributes
only). -/
def applyUpdates (prev : Option Item) (u : Item) : Item :=
  let p := prev.getD {}
  { last_hash := updField u.last_hash p.last_hash
    normalized_text := updField u.normalized_text p.normalized_text
    etag := updField u.etag p.etag
    last_modified := updField u.last_modified p.last_modified
    last_checked_at := updField u.last_checked_at p.last_checked_at
    last_changed_at := updField u.last_changed_at p.last_changed_at
    last_notified_at := updField u.last_notified_at p.last_notified_at
    error_count := updField u.error_count p.error_count
    last_error := updField u.last_error p.last_error }

/-- `update_state`: perform the partial update, or re-raise the store's
`ClientError` (modelled by the flag `storeOk`). -/
def update_state (storeOk : Bool) (prev : Option Item) (u : Item) :
    Except String Item :=
  if storeOk then .ok (applyUpdates prev u)
  else .error "DynamoDB update_item failed"

/-! ### `app.py` -/

/-- Outcome of `fetch_url`: a raised exception, a 304 response, or a 2xx
response carrying the body text and the optional `ETag` /
`Last-Modified` response headers. -/
inductive FetchOutcome where
  | err (msg : String)
  | notModified
  | ok (content : String) (etag : Option String)
      (last_modified : Option String)

/-- One change record, as built by `process_url`. -/
structure ChangeRecord where
  url : String
  previous_hash : Option String
  new_hash : String
  diff_snippet : String
  is_new : Bool
deriving DecidableEq

/-- Run-wide configuration and ambient state: the fingerprint function
(`compute_hash`), the timestamp parser (`datetime.fromisoformat` composed
with the `Z` replacement, returning seconds as a rational, or `none` when
the string is malformed), the current time as seconds (`nowT`) and as its
ISO rendering (`nowS`), and `COOLDOWN_HOURS`. -/
structure Env where
  hashF : String → String
  parseTime : String → Option ℚ
  nowT : ℚ
  nowS : String
  cooldownHours : Int

/-- Per-target inputs: the URL, its stored state, the fetch collaborator
(as a function of the conditional headers), the normalizer
(`normalize_html` with this target's selector and the run's ignore
patterns; an exception is an `.error`), and whether state-store writes
succeed for this target. -/
structure TargetInput where
  url : String
  prev : Option Item
  fetchF : Option String × Option String → FetchOutcome
  normalizeF : String → Except String String
  storeOk : Bool

/-- `str(e)[:500]`: the error-message truncation used by `process_url`. -/
def truncate500 (s : String) : String := String.mk (s.toList.take 500)

/-- The conditional headers `process_url` prepares from the stored state:
`If-None-Match` from a truthy (non-empty) stored `etag`, and
`If-Modified-Since` from a truthy stored `last_modified`. -/
def conditionalHeaders (prev : Option Item) : Option String × Option String :=
  match prev with
  | none => (none, none)
  | some p =>
    ((match p.etag with
      | some e => if e ≠ "" then some e else none
      | none => none),
     (match p.last_modified with
      | some m => if m ≠ "" then some m else none
      | none => none))

/-- `should_notify`: `True` when the cooldown is disabled, when no
`last_notified_at` is stored, or when parsing it fails (logged warning);
otherwise compare the elapsed hours against the cooldown. -/
def should_notify (env : Env) (_url : String) (prev : Option Item) : Bool :=
  if env.cooldownHours ≤ 0 then true
  else
    match prev.bind (·.last_notified_at) with
    | none => true
    | some s =>
      match env.parseTime s with
      | none => true
      | some t =>
        decide ((env.cooldownHours : ℚ) ≤ (env.nowT - t) / 3600)

/-- `process_url`: fetch, normalize, hash, compare with the stored state,
and update it.  Returns the change record (when one is emitted) together
with the item written by the final `update_state` call; a store failure
propagates as `.error`, like the re-raised `ClientError`.  The source
calls `datetime.now(timezone.utc).isoformat()` afresh in each branch;
the model reads the run's clock once as `env.nowS`, standing for each of
those calls. -/
def process_url (env : Env) (t : TargetInput) :
    Except String (Option ChangeRecord × Item) :=
  let prev := t.prev
  match t.fetchF (conditionalHeaders prev) with
  | .err e =>
    let errorCount := (match prev with
      | some p => p.error_count.getD 0
      | none => 0) + 1
    (update_state t.storeOk prev
      { error_count := some errorCount, last_error := some (truncate500 e),
        last_checked_at := some env.nowS }).map (fun st => (none, st))
  | .notModified =>
    -- `touch_state` updates only `last_checked_at`.
    (update_state t.storeOk prev
      { last_checked_at := some env.nowS }).map (fun st => (none, st))
  | .ok content etag lastModified =>
    match t.normalizeF content with
    | .error e =>
      let errorCount := (match prev with
        | some p => p.error_count.getD 0
        | none => 0) + 1
      (update_state t.storeOk prev
        { error_count := some errorCount, last_error := some (truncate500 e),
          last_checked_at := some env.nowS }).map (fun st => (none, st))
    | .ok normalizedText =>
      let newHash := env.hashF normalizedText
      if (match prev with
          | some p => p.last_hash == some newHash
          | none => false) then
        (update_state t.storeOk prev
          { last_checked_at := some env.nowS,
            error_count := some 0 }).map (fun st => (none, st))
      else
        let prevHash := prev.bind (·.last_hash)
        let prevText := prev.bind (·.normalized_text)
        let base : Item :=
          { last_hash := some newHash, last_checked_at := some env.nowS,
            last_changed_at := some env.nowS, error_count := some 0,
            normalized_text := some normalizedText, etag := etag,
            last_modified := lastModified }
        if should_notify env t.url prev then
          let changeRecord : ChangeRecord :=
            { url := t.url, previous_hash := prevHash, new_hash := newHash,
              diff_snippet :=
                generate_diff_snippet (prevText.getD "") normalizedText,
              is_new := prevHash.isNone }
          (update_state t.storeOk prev
            { base with last_notified_at := some env.nowS }).map
            (fun st => (some changeRecord, st))
        else
          (update_state t.storeOk prev base).map (fun st => (none, st))

/-- The `for url_config in url_configs` loop of `lambda_handler`:
collect the truthy change records in order; an exception raised by
`process_url` propagates and aborts the run. -/
def runTargets (env : Env) : List TargetInput →
    Except String (List ChangeRecord)
  | [] => .ok []
  | t :: ts => do
    let r ← process_url env t
    let rest ← runTargets env ts
    return (match r.1 with
      | some c => c :: rest
      | none => rest)

/-- Result of `lambda_handler`: the early "No URLs to check" return, or a
completed run with `urls_checked`, the collected change records, and the
`send_digest_email` invocations made (each carrying its argument list and
the total URL count; a delivery failure is caught, so the invocation is
recorded either way). -/
inductive HandlerResult where
  | noUrls
  | completed (urls_checked : Nat) (changes : List ChangeRecord)
      (digestCalls : List (List ChangeRecord × Nat))
deriving DecidableEq

/-- The change-record list of a handler result. -/
def HandlerResult.changes' : HandlerResult → List ChangeRecord
  | .noUrls => []
  | .completed _ cs _ => cs

/-- The digest invocations of a handler result. -/
def HandlerResult.digests : HandlerResult → List (List ChangeRecord × Nat)
  | .noUrls => []
  | .completed _ _ ds => ds

/-- `lambda_handler`: process every configured target in order, then send
one digest e-mail if and only if some change was recorded. -/
def lambda_handler (env : Env) (inputs : List TargetInput) :
    Except String HandlerResult :=
  if inputs.isEmpty then .ok .noUrls
  else
    (runTargets env inputs).map (fun changes =>
      .completed inputs.length changes
        (if changes.isEmpty then [] else [(changes, inputs.length)]))

deriving instance DecidableEq for Except

/-! ### Predicates and concrete inputs used by the claim theorems -/

/-- A line free of Python line boundaries. -/
def breakFree (l : Line) : Prop := ∀ c ∈ l, isLineBreakChar c = false

/-- With `n = 0`, any `equal` opcode that the grouping loop places into a
group is empty on the `a` side (so it emits no context lines). -/
def EqEmpty (c : Opcode) : Prop := c.tag = .equal → c.i2 ≤ c.i1

/-- The number of "change lines" a snippet is drawn from: the line count
of the new text in the empty-old branch, the filtered diff-line count in
the diff branch. -/
def snippetChangeCount (oldText newText : String) : Nat :=
  if oldText.toList.isEmpty then (pySplitlinesCore newText.toList).length
  else (diffFilteredCore oldText.toList newText.toList).length

/-- A run environment with a 6-hour cooldown whose clock sits exactly at
the stored notification time (so the cooldown suppresses). -/
def envC1 : Env :=
  { hashF := fun s => s, parseTime := fun _ => some 0, nowT := 0,
    nowS := "NOW", cooldownHours := 6 }

/-- A stored item with a fingerprint, text, and notification time. -/
def itemC1 : Item :=
  { last_hash := some "h0", normalized_text := some "old text",
    last_notified_at := some "2024-01-01T00:00:00+00:00",
    error_count := some 0 }

/-- A target whose fetched content normalizes to a new text (hence a new
fingerprint under the identity hash). -/
def tC1 : TargetInput :=
  { url := "u", prev := some itemC1, fetchF := fun _ => .ok "body" none none,
    normalizeF := fun _ => .ok "new text", storeOk := true }

/-- An environment with the cooldown disabled. -/
def envC2 : Env :=
  { hashF := fun s => s, parseTime := fun _ => none, nowT := 0,
    nowS := "NOW", cooldownHours := 0 }

/-- A target whose fetch raises and whose state-store writes fail. -/
def tC2bad : TargetInput :=
  { url := "u1", prev := none, fetchF := fun _ => .err "boom",
    normalizeF := fun s => .ok s, storeOk := false }

/-- A healthy target processed after the failing one. -/
def tC2ok : TargetInput :=
  { url := "u2", prev := none, fetchF := fun _ => .ok "page" none none,
    normalizeF := fun s => .ok s, storeOk := true }

/-- The failing target of `tC2bad`, but with working state-store writes. -/
def tC2bad' : TargetInput :=
  { url := "u1", prev := none, fetchF := fun _ => .err "boom",
    normalizeF := fun s => .ok s, storeOk := true }

/-- An environment for the error-branch run. -/
def envC4 : Env :=
  { hashF := fun s => s, parseTime := fun _ => none, nowT := 0,
    nowS := "NOW", cooldownHours := 0 }

/-- A stored item carrying two prior consecutive errors. -/
def itemC4 : Item :=
  { last_hash := some "hh", normalized_text := some "tt",
    error_count := some 2, last_error := some "old error" }

/-- A target whose fetch raises. -/
def tC4 : TargetInput :=
  { url := "u", prev := some itemC4, fetchF := fun _ => .err "Timeout: x",
    normalizeF := fun s => .ok s, storeOk := true }

/-- A 21-line text (one more than the snippet cap). -/
def txt21 : String :=
  String.mk (joinNLCore ((List.range 21).map (fun i => 'a' :: natDecimal i)))

/-- An environment with a long cooldown (irrelevant for new targets). -/
def envC5 : Env :=
  { hashF := fun s => s, parseTime := fun _ => some 0, nowT := 0,
    nowS := "NOW", cooldownHours := 1000 }

/-- A brand-new target (no stored state) whose content normalizes to the
21-line text. -/
def tC5 : TargetInput :=
  { url := "u", prev := none, fetchF := fun _ => .ok "html" none none,
    normalizeF := fun _ => .ok txt21, storeOk := true }

/-- An old text of 50 distinct lines (all removed when diffed against the
empty new text, giving 50 line-level edits). -/
def old50C6 : String :=
  String.mk (joinNLCore ((List.range 50).map (fun i => 'o' :: natDecimal i)))

/-- An environment for the digest-batching run. -/
def envC9 : Env :=
  { hashF := fun s => s, parseTime := fun _ => none, nowT := 0,
    nowS := "NOW", cooldownHours := 0 }

/-- First new target of the digest-batching run. -/
def tC9a : TargetInput :=
  { url := "u1", prev := none, fetchF := fun _ => .ok "p1" none none,
    normalizeF := fun _ => .ok "n1", storeOk := true }

/-- Second new target of the digest-batching run. -/
def tC9b : TargetInput :=
  { url := "u2", prev := none, fetchF := fun _ => .ok "p2" none none,
    normalizeF := fun _ => .ok "n2", storeOk := true }

/-- The change record `tC9a` produces. -/
def recC9a : ChangeRecord :=
  { url := "u1", previous_hash := none, new_hash := "n1",
    diff_snippet := "+ n1", is_new := true }

/-- The change record `tC9b` produces. -/
def recC9b : ChangeRecord :=
  { url := "u2", previous_hash := none, new_hash := "n2",
    diff_snippet := "+ n2", is_new := true }

/-- The change record the healthy target `tC2ok` produces under the
identity hash. -/
def recC2ok : ChangeRecord :=
  { url := "u2", previous_hash := none, new_hash := "page",
    diff_snippet := "+ page", is_new := true }

/-- The handler result of the two-target digest-batching run. -/
def resC9 : HandlerResult :=
  .completed 2 [recC9a, recC9b] [([recC9a, recC9b], 2)]

/-- An environment for the validator-retention run. -/
def envC10 : Env :=
  { hashF := fun s => s, parseTime := fun _ => none, nowT := 0,
    nowS := "NOW", cooldownHours := 0 }

/-- A stored item carrying cache validators. -/
def itemC10 : Item :=
  { last_hash := some "old", normalized_text := some "old",
    etag := some "W/\x22abc\x22", last_modified := some "Mon, 01 Jan 2024" }

/-- A changed target whose response carries no `ETag`/`Last-Modified`. -/
def tC10 : TargetInput :=
  { url := "u", prev := some itemC10, fetchF := fun _ => .ok "body" none none,
    normalizeF := fun _ => .ok "new", storeOk := true }

/-! ## Infrastructure lemmas: `splitlines` / `join` -/

theorem pySplitlinesAux_cons_nobreak (c : Char) (cs acc : List Char)
    (h : isLineBreakChar c = false) :
    pySplitlinesAux (c :: cs) acc = pySplitlinesAux cs (c :: acc) := by
  have hside : ∀ cs', c = '\r' → cs = '\n' :: cs' → False := by
    rintro _ rfl _
    simp [isLineBreakChar] at h
  rw [pySplitlinesAux.eq_3 _ _ _ hside, h]
  simp

theorem pySplitlinesAux_cons_newline (cs acc : List Char) :
    pySplitlinesAux ('\n' :: cs) acc = acc.reverse :: pySplitlinesAux cs [] := by
  have hside : ∀ cs', '\n' = '\r' → cs = '\n' :: cs' → False := by
    rintro _ h _
    exact absurd h (by decide)
  rw [pySplitlinesAux.eq_3 _ _ _ hside]
  simp [isLineBreakChar]

theorem pySplitlinesAux_append (l : List Char) (hl : breakFree l) :
    ∀ rest acc, pySplitlinesAux (l ++ rest) acc =
      pySplitlinesAux rest (l.reverse ++ acc) := by
  induction l with
  | nil => simp
  | cons c l ih =>
    intro rest acc
    have hc : isLineBreakChar c = false := hl c (by simp)
    rw [List.cons_append, pySplitlinesAux_cons_nobreak c _ _ hc,
      ih (fun x hx => hl x (by simp [hx])) rest]
    simp

theorem pySplitlinesAux_breakFree :
    ∀ cs acc, (∀ c ∈ acc, isLineBreakChar c = false) →
      ∀ l ∈ pySplitlinesAux cs acc, breakFree l := by
  intro cs acc
  induction cs, acc using pySplitlinesAux.induct with
  | case1 acc hemp =>
    intro hacc l hl
    have : acc = [] := by simpa using hemp
    subst this
    simp [pySplitlinesAux] at hl
  | case2 acc hne =>
    intro hacc l hl
    rw [pySplitlinesAux.eq_1, if_neg hne] at hl
    rcases List.mem_singleton.mp hl with rfl
    intro c hc
    exact hacc c (List.mem_reverse.mp hc)
  | case3 cs acc ih =>
    intro hacc l hl
    rw [pySplitlinesAux.eq_2] at hl
    rcases List.mem_cons.mp hl with rfl | hl
    · intro c hc
      exact hacc c (List.mem_reverse.mp hc)
    · exact ih (by simp) l hl
  | case4 c cs acc hside hbrk ih =>
    intro hacc l hl
    rw [pySplitlinesAux.eq_3 _ _ _ hside, if_pos hbrk] at hl
    rcases List.mem_cons.mp hl with rfl | hl
    · intro x hx
      exact hacc x (List.mem_reverse.mp hx)
    · exact ih (by simp) l hl
  | case5 c cs acc hside hbrk ih =>
    intro hacc l hl
    rw [pySplitlinesAux.eq_3 _ _ _ hside, if_neg hbrk] at hl
    refine ih ?_ l hl
    intro x hx
    rcases List.mem_cons.mp hx with rfl | hx
    · exact Bool.eq_false_iff.mpr hbrk
    · exact hacc x hx

theorem pySplitlinesCore_breakFree (cs : List Char) :
    ∀ l ∈ pySplitlinesCore cs, breakFree l :=
  pySplitlinesAux_breakFree cs [] (by simp)

theorem joinNLCore_cons (l : Line) (ls : List Line) (h : ls ≠ []) :
    joinNLCore (l :: ls) = l ++ '\n' :: joinNLCore ls := by
  cases ls with
  | nil => exact absurd rfl h
  | cons m ms => rfl

theorem joinNLCore_append_singleton (ls : List Line) (m : Line)
    (h : ls ≠ []) :
    joinNLCore (ls ++ [m]) = joinNLCore ls ++ '\n' :: m := by
  induction ls with
  | nil => exact absurd rfl h
  | cons l ls ih =>
    cases ls with
    | nil => rfl
    | cons l2 ls2 =>
      rw [List.cons_append, joinNLCore_cons _ _ (by simp),
        joinNLCore_cons _ (l2 :: ls2) (by simp), ih (by simp)]
      simp

/-- Joining boundary-free nonempty lines and splitting again is the
identity; this ties the emitted snippet string back to the line list the
code joined. -/
theorem pySplitlines_joinNLCore (ls : List Line)
    (h1 : ∀ l ∈ ls, breakFree l) (h2 : ∀ l ∈ ls, l ≠ []) :
    pySplitlinesCore (joinNLCore ls) = ls := by
  induction ls with
  | nil => rfl
  | cons l ls ih =>
    cases ls with
    | nil =>
      have hbf : breakFree l := h1 l (by simp)
      have hne : l ≠ [] := h2 l (by simp)
      have h3 : pySplitlinesAux (l ++ []) [] = [l] := by
        rw [pySplitlinesAux_append l hbf [] []]
        simp [pySplitlinesAux, hne]
      simpa [pySplitlinesCore, joinNLCore] using h3
    | cons l2 ls2 =>
      have hbf : breakFree l := h1 l (by simp)
      have ihx : pySplitlinesAux (joinNLCore (l2 :: ls2)) [] = l2 :: ls2 :=
        ih (fun x hx => h1 x (by simp [hx])) (fun x hx => h2 x (by simp [hx]))
      show pySplitlinesAux (joinNLCore (l :: l2 :: ls2)) [] = l :: l2 :: ls2
      rw [joinNLCore_cons _ _ (by simp),
        pySplitlinesAux_append l hbf _ [], pySplitlinesAux_cons_newline]
      simp only [List.append_nil, List.reverse_reverse]
      rw [ihx]

/-! ## Infrastructure lemmas: decimal rendering, truncation, markers -/

theorem decDigit_not_break (n : Nat) :
    isLineBreakChar (decDigit n) = false := by
  have h : n % 10 < 10 := Nat.mod_lt _ (by omega)
  unfold decDigit
  interval_cases h : n % 10 <;> decide

theorem natDecimalAux_breakFree :
    ∀ fuel n, breakFree (natDecimalAux fuel n) := by
  intro fuel
  induction fuel with
  | zero => intro n c hc; simp [natDecimalAux] at hc
  | succ fuel ih =>
    intro n c hc
    unfold natDecimalAux at hc
    split at hc
    · rcases List.mem_singleton.mp hc with rfl
      exact decDigit_not_break n
    · rcases List.mem_append.mp hc with hc | hc
      · exact ih _ c hc
      · rcases List.mem_singleton.mp hc with rfl
        exact decDigit_not_break _

theorem natDecimal_breakFree (n : Nat) : breakFree (natDecimal n) :=
  natDecimalAux_breakFree _ n

theorem natDecimal_ne_nil (n : Nat) : natDecimal n ≠ [] := by
  unfold natDecimal natDecimalAux
  split <;> simp

theorem truncLineCore_breakFree (l : Line) (h : breakFree l) :
    breakFree (truncLineCore l) := by
  unfold truncLineCore
  split
  · intro c hc
    rcases List.mem_append.mp hc with hc | hc
    · exact h c (List.mem_of_mem_take hc)
    · fin_cases hc <;> decide
  · exact h

theorem truncLineCore_ne_nil (l : Line) (h : l ≠ []) :
    truncLineCore l ≠ [] := by
  unfold truncLineCore
  split
  · simp
  · exact h

theorem truncLineCore_length_le (l : Line) :
    (truncLineCore l).length ≤ MAX_LINE_LENGTH + 3 := by
  unfold truncLineCore
  split
  · simp only [List.length_append, List.length_take]
    have : ("...").toList.length = 3 := by decide
    omega
  · unfold MAX_LINE_LENGTH at *
    omega

theorem truncLineCore_of_le (l : Line) (h : l.length ≤ MAX_LINE_LENGTH) :
    truncLineCore l = l := by
  unfold truncLineCore
  rw [if_neg (by omega)]

theorem truncLineCore_of_gt (l : Line) (h : MAX_LINE_LENGTH < l.length) :
    truncLineCore l = l.take MAX_LINE_LENGTH ++ ("...").toList := by
  unfold truncLineCore
  rw [if_pos h]

/-- A truncated output longer than the cap always carries the ellipsis. -/
theorem truncLineCore_long_suffix (l : Line)
    (h : MAX_LINE_LENGTH < (truncLineCore l).length) :
    ("...").toList <:+ truncLineCore l := by
  by_cases hl : MAX_LINE_LENGTH < l.length
  · rw [truncLineCore_of_gt l hl]
    exact List.suffix_append _ _
  · rw [truncLineCore_of_le l (by omega)] at h
    omega

theorem moreLinesMarkerCore_breakFree (k : Nat) :
    breakFree (moreLinesMarkerCore k) := by
  intro c hc
  unfold moreLinesMarkerCore at hc
  rcases List.mem_append.mp hc with hc | hc
  · rcases List.mem_append.mp hc with hc | hc
    · fin_cases hc <;> decide
    · exact natDecimal_breakFree k c hc
  · fin_cases hc <;> decide

theorem moreChangesMarkerCore_breakFree (k : Nat) :
    breakFree (moreChangesMarkerCore k) := by
  intro c hc
  unfold moreChangesMarkerCore at hc
  rcases List.mem_append.mp hc with hc | hc
  · rcases List.mem_append.mp hc with hc | hc
    · fin_cases hc <;> decide
    · exact natDecimal_breakFree k c hc
  · fin_cases hc <;> decide

theorem moreLinesMarkerCore_ne_nil (k : Nat) : moreLinesMarkerCore k ≠ [] := by
  unfold moreLinesMarkerCore
  simp

theorem moreChangesMarkerCore_ne_nil (k : Nat) :
    moreChangesMarkerCore k ≠ [] := by
  unfold moreChangesMarkerCore
  simp

theorem moreLinesMarkerCore_head (k : Nat) :
    (moreLinesMarkerCore k).head? = some '.' := by
  unfold moreLinesMarkerCore
  rfl

/-! ## Infrastructure lemmas: structure of the zero-context unified diff -/

theorem groupLoop_eqEmpty :
    ∀ (cs group : List Opcode), (∀ c ∈ group, EqEmpty c) →
      (∀ g ∈ (groupLoop 0 cs group).1, ∀ c ∈ g, EqEmpty c) ∧
      (∀ c ∈ (groupLoop 0 cs group).2, EqEmpty c) := by
  intro cs
  induction cs with
  | nil =>
    intro group hg
    exact ⟨by simp [groupLoop], by simpa [groupLoop] using hg⟩
  | cons c cs ih =>
    intro group hg
    unfold groupLoop
    split
    · rename_i hcond
      simp only [Bool.and_eq_true, decide_eq_true_eq] at hcond
      have hdone : ∀ x ∈ group ++
          [{ c with i2 := min c.i2 (c.i1 + 0), j2 := min c.j2 (c.j1 + 0) }],
          EqEmpty x := by
        intro x hx
        rcases List.mem_append.mp hx with hx | hx
        · exact hg x hx
        · rcases List.mem_singleton.mp hx with rfl
          intro _
          simp only [Nat.add_zero]
          exact Nat.min_le_right _ _
      have hnew : ∀ x ∈
          [{ c with i1 := max c.i1 (c.i2 - 0), j1 := max c.j1 (c.j2 - 0) }],
          EqEmpty x := by
        intro x hx
        rcases List.mem_singleton.mp hx with rfl
        intro _
        simp only [Nat.sub_zero]
        exact Nat.le_max_right _ _
      have hrec := ih _ hnew
      refine ⟨?_, hrec.2⟩
      intro g hgmem
      rcases List.mem_cons.mp hgmem with rfl | hgmem
      · exact hdone
      · exact hrec.1 g hgmem
    · rename_i hcond
      have hc : EqEmpty c := by
        intro htag
        simp only [Bool.and_eq_true, decide_eq_true_eq, not_and] at hcond
        have := hcond (by simp [htag])
        omega
      refine ih _ ?_
      intro x hx
      rcases List.mem_append.mp hx with hx | hx
      · exact hg x hx
      · rcases List.mem_singleton.mp hx with rfl
        exact hc

/-- Every `equal` opcode in any group of a zero-context grouping is empty
on the `a` side (this holds for arbitrary input opcodes: the head and
tail fixups and the splitting loop only ever produce such pieces). -/
theorem mem_ite_singleton {α : Type} {p : Prop} [Decidable p] {x g : α}
    (h : g ∈ (if p then [x] else [])) : g = x := by
  split at h
  · exact List.mem_singleton.mp h
  · simp at h

theorem getGroupedOpcodes_eqEmpty (codes : List Opcode) :
    ∀ g ∈ getGroupedOpcodes codes 0, ∀ c ∈ g, EqEmpty c := by
  intro g hg c hc
  simp only [getGroupedOpcodes] at hg
  rcases List.mem_append.mp hg with hg | hg
  · exact (groupLoop_eqEmpty _ [] (by simp)).1 g hg c hc
  · rw [mem_ite_singleton hg] at hc
    exact (groupLoop_eqEmpty _ [] (by simp)).2 c hc

/-- Shape of the lines a group emits when all its `equal` opcodes are
empty: each is a removal of a line of `a` or an addition of a line of
`b`. -/
theorem opcodeLines_shape (a b : List Line) (g : List Opcode)
    (hg : ∀ c ∈ g, EqEmpty c) :
    ∀ l ∈ opcodeLines a b g,
      (∃ x ∈ a, l = '-' :: x) ∨ (∃ x ∈ b, l = '+' :: x) := by
  intro l hl
  unfold opcodeLines at hl
  rcases List.mem_flatten.mp hl with ⟨ls, hls, hlmem⟩
  rcases List.mem_map.mp hls with ⟨c, hcg, rfl⟩
  have hsliceA : ∀ x ∈ listSlice a c.i1 c.i2, x ∈ a := by
    intro x hx
    exact List.drop_subset _ _ (List.take_subset _ _ hx)
  have hsliceB : ∀ x ∈ listSlice b c.j1 c.j2, x ∈ b := by
    intro x hx
    exact List.drop_subset _ _ (List.take_subset _ _ hx)
  rcases htag : c.tag with _ | _ | _ | _ <;> rw [htag] at hlmem
  · rcases List.mem_append.mp hlmem with hm | hm
    · rcases List.mem_map.mp hm with ⟨x, hx, rfl⟩
      exact Or.inl ⟨x, hsliceA x hx, rfl⟩
    · rcases List.mem_map.mp hm with ⟨x, hx, rfl⟩
      exact Or.inr ⟨x, hsliceB x hx, rfl⟩
  · rcases List.mem_map.mp hlmem with ⟨x, hx, rfl⟩
    exact Or.inl ⟨x, hsliceA x hx, rfl⟩
  · rcases List.mem_map.mp hlmem with ⟨x, hx, rfl⟩
    exact Or.inr ⟨x, hsliceB x hx, rfl⟩
  · have : c.i2 ≤ c.i1 := hg c hcg htag
    have : listSlice a c.i1 c.i2 = [] := by
      unfold listSlice
      have : c.i2 - c.i1 = 0 := by omega
      simp [this]
    simp [this] at hlmem

/-- Case analysis for a line of the zero-context unified diff: it is one
of the two file headers, a group header (prefixed `@@`), a removal of a
line of `a`, or an addition of a line of `b`. -/
theorem unifiedDiff_line_cases (a b : List Line) (l : Line)
    (hl : l ∈ unifiedDiffCore a b 0) :
    l = ("--- ").toList ∨ l = ("+++ ").toList ∨
    ("@@").toList.isPrefixOf l = true ∨
    (∃ x ∈ a, l = '-' :: x) ∨ (∃ x ∈ b, l = '+' :: x) := by
  unfold unifiedDiffCore at hl
  set groups := getGroupedOpcodes (getOpcodes a b) 0 with hgroups
  have hge : ∀ g ∈ groups, ∀ c ∈ g, EqEmpty c :=
    getGroupedOpcodes_eqEmpty _
  rcases hG : groups with _ | ⟨g0, gs⟩ <;> rw [hG] at hl
  · simp at hl
  · rcases List.mem_cons.mp hl with rfl | hl
    · exact Or.inl rfl
    rcases List.mem_cons.mp hl with rfl | hl
    · exact Or.inr (Or.inl rfl)
    rcases List.mem_flatten.mp hl with ⟨ls, hls, hlmem⟩
    rcases List.mem_map.mp hls with ⟨g, hgmem, rfl⟩
    have hgmem' : g ∈ groups := by rw [hG]; exact hgmem
    rcases List.mem_cons.mp hlmem with rfl | hlmem
    · refine Or.inr (Or.inr (Or.inl ?_))
      unfold groupHeader
      rcases g.head? with _ | f <;> rcases g.getLast? with _ | la <;>
        simp [List.isPrefixOf]
    · rcases opcodeLines_shape a b g (hge g hgmem') l hlmem with h | h
      · exact Or.inr (Or.inr (Or.inr (Or.inl h)))
      · exact Or.inr (Or.inr (Or.inr (Or.inr h)))

/-- No line of the zero-context unified diff is an unchanged context line
(context lines would start with a space). -/
theorem unifiedDiff_no_context (a b : List Line) (l : Line)
    (hl : l ∈ unifiedDiffCore a b 0) : l.head? ≠ some ' ' := by
  rcases unifiedDiff_line_cases a b l hl with h | h | h | ⟨x, _, rfl⟩ | ⟨x, _, rfl⟩
  · subst h; decide
  · subst h; decide
  · rcases l with _ | ⟨c, l'⟩
    · simp
    · have : c = '@' := by
        cases hpre : ("@@").toList.isPrefixOf (c :: l') with
        | false => rw [hpre] at h; cases h
        | true =>
          rcases List.isPrefixOf_iff_prefix.mp hpre with ⟨t, ht⟩
          cases ht
          rfl
      subst this
      simp
  · simp
  · simp

/-- Every line surviving the header filter is a removal of a line of the
old text or an addition of a line of the new text. -/
theorem diffFiltered_shape (oldL newL : List Char) (l : Line)
    (hl : l ∈ diffFilteredCore oldL newL) :
    (∃ x ∈ pySplitlinesCore oldL, l = '-' :: x) ∨
    (∃ x ∈ pySplitlinesCore newL, l = '+' :: x) := by
  unfold diffFilteredCore at hl
  rcases List.mem_filter.mp hl with ⟨hmem, hkeep⟩
  rcases unifiedDiff_line_cases _ _ l hmem with h | h | h | h | h
  · subst h
    simp [isHeaderLine, List.isPrefixOf] at hkeep
  · subst h
    simp [isHeaderLine, List.isPrefixOf] at hkeep
  · unfold isHeaderLine at hkeep
    rw [h] at hkeep
    simp at hkeep
  · exact Or.inl h
  · exact Or.inr h

/-! ## Infrastructure lemmas: snippet line lists and the emitted string -/

theorem diffFiltered_breakFree (o n : List Char) :
    ∀ l ∈ diffFilteredCore o n, breakFree l ∧ l ≠ [] := by
  intro l hl
  rcases diffFiltered_shape o n l hl with ⟨x, hx, rfl⟩ | ⟨x, hx, rfl⟩
  · refine ⟨?_, by simp⟩
    intro c hc
    rcases List.mem_cons.mp hc with rfl | hc
    · decide
    · exact pySplitlinesCore_breakFree o x hx c hc
  · refine ⟨?_, by simp⟩
    intro c hc
    rcases List.mem_cons.mp hc with rfl | hc
    · decide
    · exact pySplitlinesCore_breakFree n x hx c hc

theorem diffSnippetLines_mem (o n : List Char) :
    ∀ l ∈ diffSnippetLinesCore o n, ∃ x, l = truncLineCore x ∧
      (x ∈ diffFilteredCore o n ∨
        x = moreChangesMarkerCore
          ((diffFilteredCore o n).length - MAX_DIFF_LINES)) := by
  intro l hl
  unfold diffSnippetLinesCore at hl
  rcases List.mem_map.mp hl with ⟨x, hx, rfl⟩
  refine ⟨x, rfl, ?_⟩
  split at hx
  · rcases List.mem_append.mp hx with hx | hx
    · exact Or.inl (List.take_subset _ _ hx)
    · exact Or.inr (List.mem_singleton.mp hx)
  · exact Or.inl hx

theorem diffSnippetLines_breakFree (o n : List Char) :
    ∀ l ∈ diffSnippetLinesCore o n, breakFree l ∧ l ≠ [] := by
  intro l hl
  rcases diffSnippetLines_mem o n l hl with ⟨x, rfl, hx | hx⟩
  · rcases diffFiltered_breakFree o n x hx with ⟨hbf, hne⟩
    exact ⟨truncLineCore_breakFree x hbf, truncLineCore_ne_nil x hne⟩
  · subst hx
    exact ⟨truncLineCore_breakFree _ (moreChangesMarkerCore_breakFree _),
      truncLineCore_ne_nil _ (moreChangesMarkerCore_ne_nil _)⟩

/-- Splitting the diff-branch snippet recovers exactly the line list the
code joined. -/
theorem diffSnippet_lines (o n : List Char) (h : ¬ o.isEmpty) :
    pySplitlinesCore (generateDiffSnippetCore o n) =
      diffSnippetLinesCore o n := by
  unfold generateDiffSnippetCore
  rw [if_neg h]
  exact pySplitlines_joinNLCore _
    (fun l hl => (diffSnippetLines_breakFree o n l hl).1)
    (fun l hl => (diffSnippetLines_breakFree o n l hl).2)

theorem newUrlLines_breakFree (n' : List Char) :
    ∀ l ∈ newUrlLinesCore n', breakFree l ∧ l ≠ [] := by
  intro l hl
  unfold newUrlLinesCore at hl
  rcases List.mem_map.mp hl with ⟨x, hx, rfl⟩
  have hxbf : breakFree x :=
    pySplitlinesCore_breakFree n' x (List.take_subset _ _ hx)
  refine ⟨?_, by simp⟩
  intro c hc
  rcases List.mem_cons.mp hc with rfl | hc
  · decide
  rcases List.mem_cons.mp hc with rfl | hc
  · decide
  · exact truncLineCore_breakFree x hxbf c hc

/-- Splitting the new-URL snippet recovers the prefixed lines plus the
optional overflow marker. -/
theorem newUrlSnippet_lines (n' : List Char) :
    pySplitlinesCore (newUrlSnippetCore n') =
      newUrlLinesCore n' ++
        (if MAX_DIFF_LINES < (pySplitlinesCore n').length then
          [moreLinesMarkerCore ((pySplitlinesCore n').length - MAX_DIFF_LINES)]
        else []) := by
  unfold newUrlSnippetCore
  split
  · rename_i hover
    have hlines : newUrlLinesCore n' ≠ [] := by
      unfold newUrlLinesCore
      have : (pySplitlinesCore n').take MAX_DIFF_LINES ≠ [] := by
        have h20 : 0 < MAX_DIFF_LINES := by decide
        have : (pySplitlinesCore n').length ≠ 0 := by omega
        intro hemp
        rcases List.take_eq_nil_iff.mp hemp with h | h
        · exact absurd h (by omega)
        · exact this (by simpa using h)
      simpa using this
    rw [← joinNLCore_append_singleton _ _ hlines]
    rw [pySplitlines_joinNLCore]
    · intro l hl
      rcases List.mem_append.mp hl with hl | hl
      · exact (newUrlLines_breakFree n' l hl).1
      · rcases List.mem_singleton.mp hl with rfl
        exact moreLinesMarkerCore_breakFree _
    · intro l hl
      rcases List.mem_append.mp hl with hl | hl
      · exact (newUrlLines_breakFree n' l hl).2
      · rcases List.mem_singleton.mp hl with rfl
        exact moreLinesMarkerCore_ne_nil _
  · rw [List.append_nil]
    exact pySplitlines_joinNLCore _
      (fun l hl => (newUrlLines_breakFree n' l hl).1)
      (fun l hl => (newUrlLines_breakFree n' l hl).2)

theorem generateDiffSnippetCore_empty (o n : List Char) (h : o.isEmpty) :
    generateDiffSnippetCore o n = newUrlSnippetCore n := by
  unfold generateDiffSnippetCore
  rw [if_pos h]

theorem newUrlLinesCore_length (n' : List Char) :
    (newUrlLinesCore n').length =
      min MAX_DIFF_LINES (pySplitlinesCore n').length := by
  unfold newUrlLinesCore
  simp

theorem diffSnippetLinesCore_eq (o n : List Char) :
    diffSnippetLinesCore o n =
      (if MAX_DIFF_LINES < (diffFilteredCore o n).length then
        (diffFilteredCore o n).take MAX_DIFF_LINES ++
          [moreChangesMarkerCore
            ((diffFilteredCore o n).length - MAX_DIFF_LINES)]
      else diffFilteredCore o n).map truncLineCore := rfl

theorem toList_mk (cs : List Char) : (String.mk cs).toList = cs := rfl

theorem pySplitlines_mk (cs : List Char) :
    pySplitlines (String.mk cs) = (pySplitlinesCore cs).map String.mk := rfl

theorem toList_eq_nil_iff (s : String) : s.toList = [] ↔ s = "" := by
  constructor
  · intro h
    cases s with
    | mk data =>
      cases h
      rfl
  · intro h
    subst h
    rfl

/-! ## Claim theorems -/

/-- Claim C6: `generate_diff_snippet` emits at most 20 change lines; with
more change lines it appends exactly one trailing marker stating the
omitted count, and the empty-old-text branch likewise caps at 20 lines of
new text plus one omitted-count marker.  Stated over the emitted snippet
string: its line count is the change count when that is within the cap,
and otherwise exactly cap + 1 lines, the last being the omitted-count
marker of the branch taken. -/
theorem C6_snippet_cap (old new : String) :
    (pySplitlines (generate_diff_snippet old new)).length ≤
      MAX_DIFF_LINES + 1 ∧
    (snippetChangeCount old new ≤ MAX_DIFF_LINES →
      (pySplitlines (generate_diff_snippet old new)).length =
        snippetChangeCount old new) ∧
    (MAX_DIFF_LINES < snippetChangeCount old new →
      (pySplitlines (generate_diff_snippet old new)).length =
        MAX_DIFF_LINES + 1 ∧
      (pySplitlines (generate_diff_snippet old new)).getLast? =
        some (String.mk (if old.toList.isEmpty then
          moreLinesMarkerCore (snippetChangeCount old new - MAX_DIFF_LINES)
        else truncLineCore (moreChangesMarkerCore
          (snippetChangeCount old new - MAX_DIFF_LINES))))) := by
  unfold generate_diff_snippet snippetChangeCount
  rw [pySplitlines_mk]
  by_cases hemp : old.toList.isEmpty
  · rw [generateDiffSnippetCore_empty _ _ hemp, if_pos hemp,
      newUrlSnippet_lines]
    refine ⟨?_, ?_, ?_⟩
    · rw [List.length_map, List.length_append, newUrlLinesCore_length]
      split <;> simp
    · intro hle
      rw [if_neg (by omega), List.append_nil, List.length_map,
        newUrlLinesCore_length]
      omega
    · intro hgt
      rw [if_pos hgt]
      constructor
      · rw [List.length_map, List.length_append, newUrlLinesCore_length,
          List.length_singleton]
        omega
      · rw [if_pos hemp, List.map_append]
        simp
  · rw [diffSnippet_lines _ _ hemp, if_neg hemp, diffSnippetLinesCore_eq]
    refine ⟨?_, ?_, ?_⟩
    · rw [List.length_map, List.length_map]
      split <;> rename_i hsplit
      · rw [List.length_append, List.length_take, List.length_singleton]
        omega
      · omega
    · intro hle
      rw [if_neg (by omega), List.length_map, List.length_map]
    · intro hgt
      rw [if_pos hgt, if_neg hemp]
      constructor
      · rw [List.length_map, List.length_map, List.length_append,
          List.length_take, List.length_singleton]
        omega
      · rw [List.map_append, List.map_append]
        simp

/-- Claim C6 witness, which is the claim's own worked example: 50
line-level edits (50 old lines diffed against empty new text) yield 20
emitted lines plus one `... (30 more changes)` marker. -/
theorem C6_snippet_cap_witness :
    MAX_DIFF_LINES < snippetChangeCount old50C6 "" ∧
    (pySplitlines (generate_diff_snippet old50C6 "")).length =
      MAX_DIFF_LINES + 1 ∧
    (pySplitlines (generate_diff_snippet old50C6 "")).getLast? =
      some "... (30 more changes)" := by
  refine ⟨by decide, ((C6_snippet_cap old50C6 "").2.2 (by decide)).1, ?_⟩
  have h := ((C6_snippet_cap old50C6 "").2.2 (by decide)).2
  rw [h]
  decide

/-- Claim C7 counterexample: the claim as stated is false on both
branches.  In the diff branch a 300-character source line is rendered as
the diff prefix plus only 199 source characters plus the ellipsis (the
truncation counts the `+` prefix), not 200 characters; and in the
empty-old branch an emitted line of 201 characters (199-character source
line plus the `"+ "` prefix) exceeds 200 characters yet carries no
ellipsis. -/
theorem C7_truncation_counterexample :
    generate_diff_snippet "x" (String.mk (List.replicate 300 'a')) =
      "-x\n" ++ String.mk ('+' :: (List.replicate 199 'a' ++
        ("...").toList)) ∧
    ('+' :: (List.replicate 199 'a' ++ ("...").toList)).length = 203 ∧
    (String.mk ('+' :: (List.replicate 199 'a' ++ ("...").toList)) ≠
      String.mk ('+' :: (List.replicate 200 'a' ++ ("...").toList))) ∧
    generate_diff_snippet "" (String.mk (List.replicate 199 'a')) =
      String.mk ('+' :: ' ' :: List.replicate 199 'a') ∧
    ('+' :: ' ' :: List.replicate 199 'a').length = 201 ∧
    (("...").toList.isSuffixOf ('+' :: ' ' :: List.replicate 199 'a')) =
      false := by
  refine ⟨by decide, by decide, by decide, by decide, by decide, by decide⟩

/-- Claim C7 as amended: the truncation step replaces any line longer
than 200 characters by its first 200 characters plus an ellipsis, but in
the empty-old branch it runs before the `"+ "` prefix is added (emitted
lines reach up to 205 characters, with the ellipsis guaranteed only above
202), while in the diff branch it runs after the one-character diff
prefix (every emitted line is at most 203 characters and any emitted line
longer than 200 ends in the ellipsis). -/
theorem C7_truncation_amended (old new : String) :
    (∀ l : Line, MAX_LINE_LENGTH < l.length →
      truncLineCore l = l.take MAX_LINE_LENGTH ++ ("...").toList) ∧
    (old = "" → ∀ l ∈ pySplitlines (generate_diff_snippet old new),
      ("+ ").toList <+: l.toList →
      l.length ≤ MAX_LINE_LENGTH + 5 ∧
      (MAX_LINE_LENGTH + 2 < l.length → ("...").toList <:+ l.toList)) ∧
    (old ≠ "" → ∀ l ∈ pySplitlines (generate_diff_snippet old new),
      l.length ≤ MAX_LINE_LENGTH + 3 ∧
      (MAX_LINE_LENGTH < l.length → ("...").toList <:+ l.toList)) := by
  refine ⟨truncLineCore_of_gt, ?_, ?_⟩
  · intro hold l hl hpre
    have hemp : old.toList.isEmpty := by
      subst hold
      rfl
    unfold generate_diff_snippet at hl
    rw [generateDiffSnippetCore_empty _ _ hemp, pySplitlines_mk,
      newUrlSnippet_lines] at hl
    rcases List.mem_map.mp hl with ⟨x, hx, rfl⟩
    rcases List.mem_append.mp hx with hx | hx
    · unfold newUrlLinesCore at hx
      rcases List.mem_map.mp hx with ⟨y, _, rfl⟩
      have hlen : (String.mk ('+' :: ' ' :: truncLineCore y)).length =
          (truncLineCore y).length + 2 := by
        simp [String.length]
      constructor
      · have := truncLineCore_length_le y
        rw [hlen]
        unfold MAX_LINE_LENGTH at *
        omega
      · intro hgt
        rw [hlen] at hgt
        have hsuf : ("...").toList <:+ truncLineCore y :=
          truncLineCore_long_suffix y (by unfold MAX_LINE_LENGTH at *; omega)
        rcases hsuf with ⟨t, ht⟩
        refine ⟨'+' :: ' ' :: t, ?_⟩
        rw [toList_mk, List.cons_append, List.cons_append]
        exact congrArg (fun z => '+' :: ' ' :: z) ht
    · exfalso
      have hx' := mem_ite_singleton hx
      subst hx'
      rcases hpre with ⟨t, ht⟩
      rw [toList_mk] at ht
      have hhead : (("+ ").toList ++ t).head? =
          (moreLinesMarkerCore
            ((pySplitlinesCore new.toList).length - MAX_DIFF_LINES)).head? :=
        congrArg List.head? ht
      rw [moreLinesMarkerCore_head] at hhead
      simp at hhead
  · intro hold l hl
    have hemp : ¬ old.toList.isEmpty := by
      simp only [List.isEmpty_iff]
      intro h
      exact hold ((toList_eq_nil_iff old).mp h)
    unfold generate_diff_snippet at hl
    rw [pySplitlines_mk, diffSnippet_lines _ _ hemp] at hl
    rcases List.mem_map.mp hl with ⟨x, hx, rfl⟩
    rcases diffSnippetLines_mem _ _ x hx with ⟨y, rfl, _⟩
    have hlen : (String.mk (truncLineCore y)).length =
        (truncLineCore y).length := rfl
    constructor
    · rw [hlen]
      exact truncLineCore_length_le y
    · intro hgt
      rw [hlen] at hgt
      rcases truncLineCore_long_suffix y hgt with ⟨t, ht⟩
      refine ⟨t, ?_⟩
      rw [toList_mk]
      exact ht

/-- Claim C7 witness: the amended bounds applied to the two concrete
inputs of the counterexample, together with the concrete renderings of a
300-character source line in each branch. -/
theorem C7_truncation_witness :
    (∀ l ∈ pySplitlines (generate_diff_snippet "x"
        (String.mk (List.replicate 300 'a'))),
      l.length ≤ MAX_LINE_LENGTH + 3 ∧
      (MAX_LINE_LENGTH < l.length → ("...").toList <:+ l.toList)) ∧
    generate_diff_snippet "" (String.mk (List.replicate 300 'a')) =
      String.mk ('+' :: ' ' :: (List.replicate 200 'a' ++ ("...").toList)) ∧
    generate_diff_snippet "x" (String.mk (List.replicate 300 'a')) =
      "-x\n" ++ String.mk ('+' :: (List.replicate 199 'a' ++
        ("...").toList)) := by
  refine ⟨(C7_truncation_amended "x"
    (String.mk (List.replicate 300 'a'))).2.2 (by decide), by decide, by decide⟩

/-- Claim C8 counterexample: the header filter does not discard exactly
the diff metadata lines.  Diffing the one-line text `-- a` against `b`
produces the changed (removal) line `--- a`, which starts with `---` and
is therefore discarded: the snippet keeps only `+b`, losing a changed
line that was within the cap. -/
theorem C8_header_filter_counterexample :
    unifiedDiffCore [("-- a").toList] [("b").toList] 0 =
      [("--- ").toList, ("+++ ").toList, ("@@ -1 +1 @@").toList,
        ("--- a").toList, ("+b").toList] ∧
    ("--- a").toList = '-' :: ("-- a").toList ∧
    generate_diff_snippet "-- a" "b" = "+b" :=
  ⟨by decide, by decide, by decide⟩

/-- Claim C8 as amended: with non-empty old text the snippet is built
from a line-level zero-context diff (no emitted line is a context line
starting with a space); every surviving line is a removal of an old line
or an addition of a new line; and the snippet consists exactly of the
lines that do not start with `---`, `+++` or `@@` — a filter that removes
the metadata/header lines but also any changed line whose own text starts
with `--` or `++` — capped at 20 with the omitted-count marker, each line
truncated. -/
theorem C8_zero_context_amended (old new : String) (h : old ≠ "") :
    (∀ l ∈ unifiedDiffCore (pySplitlinesCore old.toList)
        (pySplitlinesCore new.toList) 0, l.head? ≠ some ' ') ∧
    (∀ l ∈ diffFilteredCore old.toList new.toList,
      (∃ x ∈ pySplitlinesCore old.toList, l = '-' :: x) ∨
      (∃ x ∈ pySplitlinesCore new.toList, l = '+' :: x)) ∧
    (pySplitlines (generate_diff_snippet old new) =
      (if MAX_DIFF_LINES < (diffFilteredCore old.toList new.toList).length
        then (diffFilteredCore old.toList new.toList).take MAX_DIFF_LINES ++
          [moreChangesMarkerCore
            ((diffFilteredCore old.toList new.toList).length -
              MAX_DIFF_LINES)]
        else diffFilteredCore old.toList new.toList).map
        (fun l => String.mk (truncLineCore l))) := by
  have hemp : ¬ old.toList.isEmpty := by
    simp only [List.isEmpty_iff]
    intro hx
    exact h ((toList_eq_nil_iff old).mp hx)
  refine ⟨fun l hl => unifiedDiff_no_context _ _ l hl,
    fun l hl => diffFiltered_shape _ _ l hl, ?_⟩
  unfold generate_diff_snippet
  rw [pySplitlines_mk, diffSnippet_lines _ _ hemp]
  unfold diffSnippetLinesCore
  rw [List.map_map]
  rfl

/-! ## Infrastructure lemmas: `process_url` branches -/

/-- With working state-store writes, `process_url` never raises. -/
theorem process_url_isOk (env : Env) (t : TargetInput)
    (h : t.storeOk = true) : ∃ v, process_url env t = .ok v := by
  unfold process_url update_state
  rw [h]
  rcases hf : t.fetchF (conditionalHeaders t.prev) with e | _ | ⟨c, et, lm⟩ <;>
    simp only [hf]
  · exact ⟨_, rfl⟩
  · exact ⟨_, rfl⟩
  · rcases hn : t.normalizeF c with e | txt <;> simp only [hn]
    · exact ⟨_, rfl⟩
    · split
      · exact ⟨_, rfl⟩
      · split <;> exact ⟨_, rfl⟩

/-- Whenever `process_url` returns without emitting a change record, the
stored `last_notified_at` is unchanged (so it can only advance in a run
that emits a record). -/
theorem process_url_keeps_lastNotified (env : Env) (t : TargetInput)
    (st : Item) (h : process_url env t = .ok (none, st)) :
    st.last_notified_at = (t.prev.getD {}).last_notified_at := by
  simp only [process_url, update_state] at h
  rcases hf : t.fetchF (conditionalHeaders t.prev) with e | _ | ⟨c, et, lm⟩ <;>
    simp only [hf] at h
  · split at h
    · simp only [Except.map, Except.ok.injEq, Prod.mk.injEq] at h
      rw [← h.2]
      rfl
    · simp [Except.map] at h
  · split at h
    · simp only [Except.map, Except.ok.injEq, Prod.mk.injEq] at h
      rw [← h.2]
      rfl
    · simp [Except.map] at h
  · rcases hn : t.normalizeF c with e | txt <;> simp only [hn] at h
    · split at h
      · simp only [Except.map, Except.ok.injEq, Prod.mk.injEq] at h
        rw [← h.2]
        rfl
      · simp [Except.map] at h
    · split at h
      · split at h
        · simp only [Except.map, Except.ok.injEq, Prod.mk.injEq] at h
          rw [← h.2]
          rfl
        · simp [Except.map] at h
      · split at h
        · split at h
          · simp [Except.map] at h
          · simp [Except.map] at h
        · split at h
          · simp only [Except.map, Except.ok.injEq, Prod.mk.injEq] at h
            rw [← h.2]
            rfl
          · simp [Except.map] at h

/-- Claim C1: when the new fingerprint differs from the stored one and
the cooldown suppresses notification, `process_url` persists the new
fingerprint, the new normalized text, `last_changed_at = now`,
`last_checked_at = now` and a zero error count, leaves
`last_notified_at` unchanged, and emits no change record; moreover (for
every run of `process_url` whatsoever) `last_notified_at` can only move
in a run that actually emits a change record. -/
theorem C1_suppressed_change_persists (env : Env) (t : TargetInput)
    (p : Item) (content txt : String) (etag lm : Option String)
    (hprev : t.prev = some p)
    (hfetch : t.fetchF (conditionalHeaders t.prev) = .ok content etag lm)
    (hnorm : t.normalizeF content = .ok txt)
    (hchanged : p.last_hash ≠ some (env.hashF txt))
    (hsup : should_notify env t.url t.prev = false)
    (hstore : t.storeOk = true) :
    (∃ st : Item, process_url env t = .ok (none, st) ∧
      st.last_hash = some (env.hashF txt) ∧
      st.normalized_text = some txt ∧
      st.last_changed_at = some env.nowS ∧
      st.last_checked_at = some env.nowS ∧
      st.error_count = some 0 ∧
      st.last_notified_at = p.last_notified_at) ∧
    (∀ (env' : Env) (t' : TargetInput) (st' : Item),
      process_url env' t' = .ok (none, st') →
      st'.last_notified_at = (t'.prev.getD {}).last_notified_at) := by
  constructor
  · have hbeq : (p.last_hash == some (env.hashF txt)) = false :=
      beq_eq_false_iff_ne.mpr hchanged
    rw [hprev] at hfetch hsup
    simp only [process_url, update_state, hprev, hfetch, hnorm, hstore,
      hbeq, if_true, Bool.false_eq_true, if_false, hsup, Except.map]
    exact ⟨_, rfl, rfl, rfl, rfl, rfl, rfl, rfl⟩
  · intro env' t' st' h
    exact process_url_keeps_lastNotified env' t' st' h

/-- Claim C1 witness: a concrete changed target with a 6-hour cooldown
and a notification recorded at the current instant, so the cooldown
suppresses; the new fingerprint/text/timestamps are persisted, the
stored `last_notified_at` survives, and no record is emitted. -/
theorem C1_suppressed_change_witness :
    (∃ st : Item, process_url envC1 tC1 = .ok (none, st) ∧
      st.last_hash = some (envC1.hashF "new text") ∧
      st.normalized_text = some "new text" ∧
      st.last_changed_at = some envC1.nowS ∧
      st.last_checked_at = some envC1.nowS ∧
      st.error_count = some 0 ∧
      st.last_notified_at = itemC1.last_notified_at) ∧
    (∀ (env' : Env) (t' : TargetInput) (st' : Item),
      process_url env' t' = .ok (none, st') →
      st'.last_notified_at = (t'.prev.getD {}).last_notified_at) :=
  C1_suppressed_change_persists envC1 tC1 itemC1 "body" "new text" none none
    rfl rfl rfl (by decide)
    (by simp [should_notify, envC1, itemC1, tC1]) rfl

/-- Claim C4: when the fetch or the normalize step raises, `process_url`
increments the stored error count by one, stores the error message
truncated to 500 characters, persists `last_checked_at = now`, returns
no change record, and leaves the stored fingerprint, normalized text and
`last_changed_at` untouched. -/
theorem C4_error_records_and_preserves (env : Env) (t : TargetInput)
    (e : String) (hstore : t.storeOk = true)
    (hfail : t.fetchF (conditionalHeaders t.prev) = .err e ∨
      ∃ c et lm, t.fetchF (conditionalHeaders t.prev) = .ok c et lm ∧
        t.normalizeF c = .error e) :
    ∃ st : Item, process_url env t = .ok (none, st) ∧
      st.error_count = some ((t.prev.getD {}).error_count.getD 0 + 1) ∧
      st.last_error = some (truncate500 e) ∧
      st.last_checked_at = some env.nowS ∧
      st.last_hash = (t.prev.getD {}).last_hash ∧
      st.normalized_text = (t.prev.getD {}).normalized_text ∧
      st.last_changed_at = (t.prev.getD {}).last_changed_at := by
  obtain ⟨url, prev, fetchF, normalizeF, storeOk⟩ := t
  simp only at hstore hfail ⊢
  subst hstore
  rcases hfail with hf | ⟨c, et, lm, hf, hn⟩ <;>
    simp only [process_url, update_state, hf, Except.map, if_true] <;>
    try simp only [hn]
  · rcases prev with _ | p
    · exact ⟨_, rfl, rfl, rfl, rfl, rfl, rfl, rfl⟩
    · exact ⟨_, rfl, rfl, rfl, rfl, rfl, rfl, rfl⟩
  · rcases prev with _ | p
    · exact ⟨_, rfl, rfl, rfl, rfl, rfl, rfl, rfl⟩
    · exact ⟨_, rfl, rfl, rfl, rfl, rfl, rfl, rfl⟩

/-- Claim C4 witness: a fetch failure against a target with two stored
consecutive errors: the count moves to three, the message is stored
truncated, `last_checked_at` advances, and the previous fingerprint and
text survive. -/
theorem C4_error_witness :
    ∃ st : Item, process_url envC4 tC4 = .ok (none, st) ∧
      st.error_count = some ((tC4.prev.getD {}).error_count.getD 0 + 1) ∧
      st.last_error = some (truncate500 "Timeout: x") ∧
      st.last_checked_at = some envC4.nowS ∧
      st.last_hash = (tC4.prev.getD {}).last_hash ∧
      st.normalized_text = (tC4.prev.getD {}).normalized_text ∧
      st.last_changed_at = (tC4.prev.getD {}).last_changed_at :=
  C4_error_records_and_preserves envC4 tC4 "Timeout: x" rfl (Or.inl rfl)

/-- Claim C3: `should_notify` returns true exactly when the cooldown is
disabled (`cooldown_hours <= 0`), or no `last_notified_at` is stored (no
previous state, or the key absent), or the stored value does not parse
(the warning is logged and the function still returns, never raises), or
the elapsed time since `last_notified_at` in hours is at least
`cooldown_hours`. -/
theorem C3_should_notify_iff (env : Env) (url : String) (prev : Option Item) :
    should_notify env url prev = true ↔
      (env.cooldownHours ≤ 0 ∨
       prev.bind (·.last_notified_at) = none ∨
       (∃ s, prev.bind (·.last_notified_at) = some s ∧
         env.parseTime s = none) ∨
       (∃ s t, prev.bind (·.last_notified_at) = some s ∧
         env.parseTime s = some t ∧
         (env.cooldownHours : ℚ) ≤ (env.nowT - t) / 3600)) := by
  unfold should_notify
  split
  · rename_i hc
    simp [hc]
  · rename_i hc
    rcases hb : prev.bind (·.last_notified_at) with _ | s
    · simp [hc]
    · rcases hp : env.parseTime s with _ | t
      · simp [hc, hp]
      · simp [hc, hp]

/-- The first detected change of a target with no stored state is never
suppressed: `should_notify` is true for every cooldown value. -/
theorem should_notify_none (env : Env) (url : String) :
    should_notify env url none = true := by
  unfold should_notify
  split <;> rfl

/-- `runTargets` never raises when every target's state-store writes
succeed. -/
theorem runTargets_ok (env : Env) (inputs : List TargetInput)
    (h : ∀ t ∈ inputs, t.storeOk = true) :
    ∃ cs, runTargets env inputs = .ok cs := by
  induction inputs with
  | nil => exact ⟨[], rfl⟩
  | cons t ts ih =>
    obtain ⟨v, hv⟩ := process_url_isOk env t (h t (by simp))
    obtain ⟨cs, hcs⟩ := ih (fun x hx => h x (by simp [hx]))
    refine ⟨match v.1 with | some c => c :: cs | none => cs, ?_⟩
    unfold runTargets
    rw [hv, hcs]
    rfl

/-- Claim C5 counterexample: a brand-new target whose content normalizes
to 21 lines yields a change record with `is_new = true`, but its snippet
is not made of addition lines only: the last of its 21 lines is the
trailing `... (1 more lines)` marker, which is not prefixed as an
addition. -/
theorem C5_new_target_counterexample :
    ((process_url envC5 tC5).map (fun r => r.1.map (fun c =>
      (c.is_new, (pySplitlines c.diff_snippet).length,
        (pySplitlines c.diff_snippet).getLast?)))) =
      .ok (some (true, 21, some "... (1 more lines)")) ∧
    ("... (1 more lines)").toList.head? = some '.' ∧
    (("+ ").toList.isPrefixOf ("... (1 more lines)").toList) = false :=
  ⟨by decide, by decide, by decide⟩

/-- Claim C5 as amended: a target with no prior stored state whose fetch
and normalization succeed always yields a change record with
`is_new = true`, for every value of `cooldown_hours`, whose diff snippet
consists only of addition lines except for at most one trailing
omitted-count marker, appearing exactly when the new text exceeds the
20-line cap. -/
theorem C5_new_target_amended (env : Env) (t : TargetInput)
    (content txt : String) (etag lm : Option String)
    (hprev : t.prev = none)
    (hfetch : t.fetchF (conditionalHeaders t.prev) = .ok content etag lm)
    (hnorm : t.normalizeF content = .ok txt)
    (hstore : t.storeOk = true) :
    ∃ (c : ChangeRecord) (st : Item),
      process_url env t = .ok (some c, st) ∧
      c.is_new = true ∧
      (∀ l ∈ pySplitlines c.diff_snippet,
        ("+ ").toList <+: l.toList ∨
        l = String.mk (moreLinesMarkerCore
          ((pySplitlinesCore txt.toList).length - MAX_DIFF_LINES))) ∧
      ((pySplitlinesCore txt.toList).length ≤ MAX_DIFF_LINES →
        ∀ l ∈ pySplitlines c.diff_snippet,
          ("+ ").toList <+: l.toList) := by
  rw [hprev] at hfetch
  simp only [process_url, update_state, hprev, hfetch, hnorm, hstore,
    should_notify_none, if_true, Except.map]
  refine ⟨_, _, rfl, rfl, ?_, ?_⟩
  · intro l hl
    simp only [Option.bind_none, Option.getD_none] at hl
    unfold generate_diff_snippet at hl
    rw [generateDiffSnippetCore_empty _ _ (by rfl), pySplitlines_mk,
      newUrlSnippet_lines] at hl
    rcases List.mem_map.mp hl with ⟨x, hx, rfl⟩
    rcases List.mem_append.mp hx with hx | hx
    · unfold newUrlLinesCore at hx
      rcases List.mem_map.mp hx with ⟨y, _, rfl⟩
      exact Or.inl ⟨truncLineCore y, rfl⟩
    · exact Or.inr (congrArg String.mk (mem_ite_singleton hx))
  · intro hle l hl
    simp only [Option.bind_none, Option.getD_none] at hl
    unfold generate_diff_snippet at hl
    rw [generateDiffSnippetCore_empty _ _ (by rfl), pySplitlines_mk,
      newUrlSnippet_lines, if_neg (by omega), List.append_nil] at hl
    rcases List.mem_map.mp hl with ⟨x, hx, rfl⟩
    unfold newUrlLinesCore at hx
    rcases List.mem_map.mp hx with ⟨y, _, rfl⟩
    exact ⟨truncLineCore y, rfl⟩

/-- Claim C5 witness: the amended statement applied to the concrete
21-line new target under a 1000-hour cooldown. -/
theorem C5_new_target_witness :
    ∃ (c : ChangeRecord) (st : Item),
      process_url envC5 tC5 = .ok (some c, st) ∧
      c.is_new = true ∧
      (∀ l ∈ pySplitlines c.diff_snippet,
        ("+ ").toList <+: l.toList ∨
        l = String.mk (moreLinesMarkerCore
          ((pySplitlinesCore txt21.toList).length - MAX_DIFF_LINES))) ∧
      ((pySplitlinesCore txt21.toList).length ≤ MAX_DIFF_LINES →
        ∀ l ∈ pySplitlines c.diff_snippet,
          ("+ ").toList <+: l.toList) :=
  C5_new_target_amended envC5 tC5 "html" txt21 none none rfl rfl rfl rfl

/-- Claim C2 counterexample: a state-store failure inside a target's
pipeline does propagate out of `process_url` (the `ClientError` of
`update_state` is re-raised) and, since `lambda_handler` wraps no
try/except around the loop, it aborts the whole run: the second target
is never processed and no `urls_checked` count is returned. -/
theorem C2_store_failure_counterexample :
    process_url envC2 tC2bad = .error "DynamoDB update_item failed" ∧
    lambda_handler envC2 [tC2bad, tC2ok] =
      .error "DynamoDB update_item failed" :=
  ⟨by decide, by decide⟩

/-- Claim C2 as amended: a fetch (or extraction) failure inside one
target's pipeline is caught and recorded in that target's own state and
does not propagate out of `process_url`, provided the state-store write
succeeds; and when every target's writes succeed, the run completes with
`urls_checked` equal to the full target count, failed targets included.
A state-store failure, by contrast, propagates (see the
counterexample). -/
theorem C2_error_isolation_amended :
    (∀ (env : Env) (t : TargetInput) (e : String), t.storeOk = true →
      t.fetchF (conditionalHeaders t.prev) = .err e →
      ∃ st : Item, process_url env t = .ok (none, st) ∧
        st.last_error = some (truncate500 e)) ∧
    (∀ (env : Env) (inputs : List TargetInput),
      (∀ t ∈ inputs, t.storeOk = true) → inputs ≠ [] →
      ∃ changes : List ChangeRecord,
        lambda_handler env inputs = .ok (.completed inputs.length changes
          (if changes.isEmpty then [] else [(changes, inputs.length)]))) := by
  constructor
  · intro env t e hstore hf
    simp only [process_url, update_state, hf, hstore, if_true, Except.map]
    exact ⟨_, rfl, rfl⟩
  · intro env inputs hall hne
    obtain ⟨cs, hcs⟩ := runTargets_ok env inputs hall
    refine ⟨cs, ?_⟩
    unfold lambda_handler
    rw [if_neg (by simpa using hne), hcs]
    rfl

/-- Claim C2 witness: a two-target run in which the first target's fetch
raises but its state-store writes succeed — the failure is caught, the
second target is still processed (its change record is collected), and
`urls_checked = 2` counts the failed target. -/
theorem C2_error_isolation_witness :
    lambda_handler envC2 [tC2bad', tC2ok] =
      .ok (.completed 2 [recC2ok] [([recC2ok], 2)]) ∧
    (∃ st : Item, process_url envC2 tC2bad' = .ok (none, st) ∧
      st.last_error = some (truncate500 "boom")) :=
  ⟨by decide, (C2_error_isolation_amended).1 envC2 tC2bad' "boom" rfl rfl⟩

/-- Claim C9: in every run the digest collaborator is invoked at most
once, only when the change-record list is non-empty, and an invocation
carries the full ordered record list of the run together with the total
number of configured targets. -/
theorem C9_single_digest (env : Env) (inputs : List TargetInput)
    (r : HandlerResult) (h : lambda_handler env inputs = .ok r) :
    r.digests.length ≤ 1 ∧
    (r.digests ≠ [] ↔ r.changes' ≠ []) ∧
    (∀ d ∈ r.digests, d = (r.changes', inputs.length)) ∧
    (¬ inputs.isEmpty → runTargets env inputs = .ok r.changes') := by
  unfold lambda_handler at h
  split at h
  · rename_i hemp
    injection h with h
    subst h
    simp [HandlerResult.digests, HandlerResult.changes', hemp]
  · rcases hrun : runTargets env inputs with e | cs <;> rw [hrun] at h
    · simp [Except.map] at h
    · simp only [Except.map] at h
      injection h with h
      subst h
      simp only [HandlerResult.digests, HandlerResult.changes']
      by_cases hcs : cs.isEmpty
      · rw [if_pos hcs]
        rw [List.isEmpty_iff] at hcs
        subst hcs
        simp [hrun]
      · rw [if_neg hcs]
        have hne : cs ≠ [] := fun he => hcs (by simp [he])
        refine ⟨by simp, ⟨fun _ => hne, fun _ => by simp⟩, by simp, ?_⟩
        intro _
        trivial

/-- Claim C9 witness: two simultaneously changed new targets produce
exactly one digest invocation carrying both records and the target
count 2. -/
theorem C9_single_digest_witness :
    resC9.digests.length ≤ 1 ∧
    (resC9.digests ≠ [] ↔ resC9.changes' ≠ []) ∧
    (∀ d ∈ resC9.digests, d = (resC9.changes', 2)) ∧
    (¬ ([tC9a, tC9b] : List TargetInput).isEmpty →
      runTargets envC9 [tC9a, tC9b] = .ok resC9.changes') :=
  C9_single_digest envC9 [tC9a, tC9b] resC9 (by decide)

/-- Claim C10: `update_state` performs a partial update — every stored
attribute not named in the updates dict keeps its previous value — and
consequently, when a changed target's response carries no `ETag` or
`Last-Modified` header, the previously stored cache validators are
retained and the conditional-request hints computed from the new state
for the next fetch equal those computed from the old state. -/
theorem C10_partial_update :
    (∀ (prev : Option Item) (u : Item),
      (u.last_hash = none →
        (applyUpdates prev u).last_hash = (prev.getD {}).last_hash) ∧
      (u.normalized_text = none →
        (applyUpdates prev u).normalized_text =
          (prev.getD {}).normalized_text) ∧
      (u.etag = none → (applyUpdates prev u).etag = (prev.getD {}).etag) ∧
      (u.last_modified = none →
        (applyUpdates prev u).last_modified = (prev.getD {}).last_modified) ∧
      (u.last_checked_at = none →
        (applyUpdates prev u).last_checked_at =
          (prev.getD {}).last_checked_at) ∧
      (u.last_changed_at = none →
        (applyUpdates prev u).last_changed_at =
          (prev.getD {}).last_changed_at) ∧
      (u.last_notified_at = none →
        (applyUpdates prev u).last_notified_at =
          (prev.getD {}).last_notified_at) ∧
      (u.error_count = none →
        (applyUpdates prev u).error_count = (prev.getD {}).error_count) ∧
      (u.last_error = none →
        (applyUpdates prev u).last_error = (prev.getD {}).last_error)) ∧
    (∀ (env : Env) (t : TargetInput) (p : Item) (content txt : String),
      t.prev = some p →
      t.fetchF (conditionalHeaders t.prev) = .ok content none none →
      t.normalizeF content = .ok txt →
      p.last_hash ≠ some (env.hashF txt) →
      t.storeOk = true →
      ∃ (r : Option ChangeRecord) (st : Item),
        process_url env t = .ok (r, st) ∧
        st.etag = p.etag ∧
        st.last_modified = p.last_modified ∧
        conditionalHeaders (some st) = conditionalHeaders (some p)) := by
  constructor
  · intro prev u
    refine ⟨?_, ?_, ?_, ?_, ?_, ?_, ?_, ?_, ?_⟩ <;>
      · intro hu
        simp [applyUpdates, updField, hu]
  · intro env t p content txt hprev hfetch hnorm hchanged hstore
    have hbeq : (p.last_hash == some (env.hashF txt)) = false :=
      beq_eq_false_iff_ne.mpr hchanged
    rw [hprev] at hfetch
    simp only [process_url, update_state, hprev, hfetch, hnorm, hstore,
      hbeq, if_true, Bool.false_eq_true, if_false, Except.map]
    split
    · exact ⟨_, _, rfl, rfl, rfl, rfl⟩
    · exact ⟨_, _, rfl, rfl, rfl, rfl⟩

/-- Claim C10 witness: a changed target whose stored state holds an
`ETag` and a `Last-Modified` validator and whose response carries
neither: both validators survive the update and the next run's
conditional headers are unchanged. -/
theorem C10_partial_update_witness :
    ∃ (r : Option ChangeRecord) (st : Item),
      process_url envC10 tC10 = .ok (r, st) ∧
      st.etag = itemC10.etag ∧
      st.last_modified = itemC10.last_modified ∧
      conditionalHeaders (some st) = conditionalHeaders (some itemC10) :=
  (C10_partial_update).2 envC10 tC10 itemC10 "body" "new"
    rfl rfl rfl (by decide) rfl

/-- Claim C8 witness: the amended statement applied to the texts `a` and
`b`, whose diff is one removal and one addition, both kept. -/
theorem C8_zero_context_witness :
    (∀ l ∈ unifiedDiffCore (pySplitlinesCore ("a").toList)
        (pySplitlinesCore ("b").toList) 0, l.head? ≠ some ' ') ∧
    (∀ l ∈ diffFilteredCore ("a").toList ("b").toList,
      (∃ x ∈ pySplitlinesCore ("a").toList, l = '-' :: x) ∨
      (∃ x ∈ pySplitlinesCore ("b").toList, l = '+' :: x)) ∧
    (pySplitlines (generate_diff_snippet "a" "b") =
      (if MAX_DIFF_LINES < (diffFilteredCore ("a").toList ("b").toList).length
        then (diffFilteredCore ("a").toList ("b").toList).take MAX_DIFF_LINES
          ++ [moreChangesMarkerCore
            ((diffFilteredCore ("a").toList ("b").toList).length -
              MAX_DIFF_LINES)]
        else diffFilteredCore ("a").toList ("b").toList).map
        (fun l => String.mk (truncLineCore l))) :=
  C8_zero_context_amended "a" "b" (by decide)

end SiteDiffer
